import Mathlib

namespace Gather

/-- An event row: id, slug, capacity, status string
('draft' | 'published' | 'cancelled'), and nullable owner. -/
structure Event where
  id : Nat
  slug : String
  capacity : Int
  status : String
  user_id : Option Nat
  deriving Repr, DecidableEq

/-- An attendee row of the attendees table. -/
structure Attendee where
  id : Nat
  event_id : Nat
  name : String
  email : String
  qr_code : String
  cancel_token : Nat
  checked_in : Bool
  checked_in_at : Option Nat
  cancelled : Bool
  created_at : Nat
  deriving Repr, DecidableEq

/-- A waitlist row of the waitlist table. -/
structure WaitlistEntry where
  id : Nat
  event_id : Nat
  name : String
  email : String
  notified : Bool
  created_at : Nat
  deriving Repr, DecidableEq

/-- The database state: the three tables the subsystem reads and writes. -/
structure DB where
  events : List Event
  attendees : List Attendee
  waitlist : List WaitlistEntry
  deriving Repr, DecidableEq

/-- The QR payload embedded at registration:
JSON.stringify of the attendeeId, eventId, name, email record,
rendered by the QR encoder.  Modelled as an injective string encoding. -/
def qrEncode (attendeeId eventId : Nat) (name email : String) : String :=
  "qr:" ++ toString attendeeId ++ "|" ++ toString eventId ++ "|" ++ name ++ "|" ++ email

/-- Errors surfaced by the register route. -/
inductive RegError where
  | missingFields
  | eventNotFound
  | eventCancelled
  | eventDraft
  | duplicate
  | capacityFull
  deriving Repr, DecidableEq

/-- Outcome of the register route: an error, a fresh registration
(res.json with id, qr_code, cancel_token), or a reactivation
(res.json with reactivated true and no cancel_token). -/
inductive RegOutcome where
  | error (e : RegError)
  | fresh (id : Nat) (name email qr : String) (cancelToken : Nat)
  | reactivated (id : Nat) (name email qr : String)
  deriving Repr, DecidableEq

/-- True on the two success responses of the register route, false on
every error response. -/
def RegOutcome.isSuccess : RegOutcome → Bool
  | .error _ => false
  | .fresh _ _ _ _ _ => true
  | .reactivated _ _ _ _ => true

/-- POST /events/:slug/register.  `freshId` models uuidv4(),
`freshToken` models crypto.randomBytes(16), `now` the row's created_at
default.  Returns the response plus the new database state. -/
def register (db : DB) (slug name email : String) (freshId freshToken now : Nat) :
    RegOutcome × DB :=
  if name = "" ∨ email = "" then (.error .missingFields, db)
  else
    match db.events.find? (fun e => e.slug == slug) with
    | none => (.error .eventNotFound, db)
    | some event =>
      if event.status == "cancelled" then (.error .eventCancelled, db)
      else if event.status == "draft" then (.error .eventDraft, db)
      else
        match db.attendees.find? (fun a => a.event_id == event.id && a.email == email) with
        | some existing =>
          if !existing.cancelled then (.error .duplicate, db)
          else
            -- UPDATE attendees SET cancelled = 0, name = ?, qr_code = ?, checked_in = 0
            let qr := qrEncode existing.id event.id name email
            let att := db.attendees.map (fun a =>
              if a.id == existing.id then
                { a with cancelled := false, name := name, qr_code := qr, checked_in := false }
              else a)
            (.reactivated existing.id name email qr, { db with attendees := att })
        | none =>
          let count := db.attendees.countP (fun a => a.event_id == event.id && !a.cancelled)
          if event.capacity ≤ (count : Int) then (.error .capacityFull, db)
          else
            let qr := qrEncode freshId event.id name email
            let newAtt : Attendee :=
              { id := freshId, event_id := event.id, name := name, email := email,
                qr_code := qr, cancel_token := freshToken, checked_in := false,
                checked_in_at := none, cancelled := false, created_at := now }
            (.fresh freshId name email qr freshToken,
             { db with attendees := db.attendees ++ [newAtt] })

/-- Count of non-cancelled attendees of an event, as the register route
computes it (SELECT COUNT(*) WHERE event_id = ? AND cancelled = 0). -/
def activeCount (db : DB) (eventId : Nat) : Nat :=
  db.attendees.countP (fun a => a.event_id == eventId && !a.cancelled)

/-- Outcome of the cancel route. -/
inductive CancelOutcome where
  | notFound
  | invalidToken
  | ok
  deriving Repr, DecidableEq

/-- Fold step selecting the entry with the strictly smaller created_at,
keeping the earlier list element on ties. -/
def pickOlder (acc : Option WaitlistEntry) (w : WaitlistEntry) : Option WaitlistEntry :=
  match acc with
  | none => some w
  | some b => if w.created_at < b.created_at then some w else some b

/-- SELECT * FROM waitlist WHERE event_id = ? AND notified = 0
ORDER BY created_at ASC LIMIT 1: among the unnotified entries of the
event, the first list element holding the minimal created_at. -/
def oldestUnnotified (eventId : Nat) (wl : List WaitlistEntry) : Option WaitlistEntry :=
  (wl.filter (fun w => w.event_id == eventId && !w.notified)).foldl pickOlder none

/-- Number of already-notified waitlist entries of an event. -/
def notifiedCount (db : DB) (eventId : Nat) : Nat :=
  db.waitlist.countP (fun w => w.event_id == eventId && w.notified)

/-- Number of waitlist entries of an event. -/
def waitlistCount (db : DB) (eventId : Nat) : Nat :=
  db.waitlist.countP (fun w => w.event_id == eventId)

/-- POST /attendees/:id/cancel.  Marks the attendee cancelled after a
token check, then promotes (marks notified) the oldest unnotified
waitlist entry of the attendee's event, if any. -/
def cancel (db : DB) (attendeeId token : Nat) : CancelOutcome × DB :=
  match db.attendees.find? (fun a => a.id == attendeeId) with
  | none => (.notFound, db)
  | some attendee =>
    if attendee.cancel_token ≠ token then (.invalidToken, db)
    else
      let att := db.attendees.map (fun a =>
        if a.id == attendeeId then { a with cancelled := true } else a)
      let db1 : DB := { db with attendees := att }
      match oldestUnnotified attendee.event_id db1.waitlist with
      | some nextInLine =>
        (.ok, { db1 with waitlist := db1.waitlist.map (fun w =>
          if w.id == nextInLine.id then { w with notified := true } else w) })
      | none => (.ok, db1)

/-- n repeated calls of the cancel route with the same attendee id and
token. -/
def iterateCancel (attendeeId token : Nat) : Nat → DB → DB
  | 0, db => db
  | n + 1, db => iterateCancel attendeeId token n (cancel db attendeeId token).2

/-- Outcome of the manual check-in route: the route echoes the attendee
record it computed back to the caller. -/
inductive CheckinOutcome where
  | notFound
  | alreadyCheckedIn (attendee : Attendee)
  | checkedIn (attendee : Attendee)
  deriving Repr, DecidableEq

/-- POST /attendees/:id/checkin.  No cancelled check: a cancelled
attendee is checked in like any other.  `now` models
new Date().toISOString(). -/
def checkIn (db : DB) (attendeeId now : Nat) : CheckinOutcome × DB :=
  match db.attendees.find? (fun a => a.id == attendeeId) with
  | none => (.notFound, db)
  | some attendee =>
    if attendee.checked_in then (.alreadyCheckedIn attendee, db)
    else
      (.checkedIn { attendee with checked_in := true, checked_in_at := some now },
       { db with attendees := db.attendees.map (fun a =>
         if a.id == attendeeId then { a with checked_in := true, checked_in_at := some now }
         else a) })

/-- The parsed QR request body: JSON.parse either fails (modelled by
passing none to the route) or yields a record whose attendeeId key may
be absent. -/
structure QrParsed where
  attendeeId : Option Nat
  deriving Repr, DecidableEq

/-- Outcome of the QR check-in route. -/
inductive QrOutcome where
  | invalidQr
  | invalidData
  | notFound
  | rsvpCancelled
  | success (alreadyCheckedIn : Bool) (attendee : Attendee)
  deriving Repr, DecidableEq

/-- POST /checkin/qr.  The SELECT joins attendees with events, so the
attendee's event must exist for a row to come back.  Rejects cancelled
attendees; otherwise idempotent check-in as the manual route. -/
def checkInByQr (db : DB) (qrData : Option QrParsed) (now : Nat) : QrOutcome × DB :=
  match qrData with
  | none => (.invalidQr, db)
  | some parsed =>
    match parsed.attendeeId with
    | none => (.invalidData, db)
    | some attendeeId =>
      match db.attendees.find? (fun a => a.id == attendeeId) with
      | none => (.notFound, db)
      | some attendee =>
        match db.events.find? (fun e => e.id == attendee.event_id) with
        | none => (.notFound, db)
        | some _ =>
          if attendee.cancelled then (.rsvpCancelled, db)
          else if attendee.checked_in then (.success true attendee, db)
          else
            (.success false attendee,
             { db with attendees := db.attendees.map (fun a =>
               if a.id == attendeeId then
                 { a with checked_in := true, checked_in_at := some now }
               else a) })

/-- The dashboard aggregation payload. -/
structure DashboardData where
  attendees : List Attendee
  total : Nat
  checked_in : Nat
  waitlist_count : Nat
  checkin_times : List Nat
  deriving Repr, DecidableEq

/-- Outcome of the dashboard route. -/
inductive DashOutcome where
  | unauthorized
  | eventNotFound
  | forbidden
  | ok (data : DashboardData)
  deriving Repr, DecidableEq

/-- The aggregation GET /events/:slug/attendees computes once
authorized: attendees of the event newest-first, cancelled ones
filtered out of the listing and of every count. -/
def dashboardData (db : DB) (event : Event) : DashboardData :=
  let rows := (db.attendees.filter (fun a => a.event_id == event.id)).mergeSort
    (fun a b => b.created_at ≤ a.created_at)
  let active := rows.filter (fun a => !a.cancelled)
  let checkedIn := active.filter (fun a => a.checked_in)
  { attendees := active
    total := active.length
    checked_in := checkedIn.length
    waitlist_count := (db.waitlist.filter (fun w => w.event_id == event.id)).length
    checkin_times := checkedIn.filterMap (fun a => a.checked_in_at) }

/-- GET /events/:slug/attendees.  requireAuth demands a logged-in
session; then the route forbids requesters other than the owner, but
lets any logged-in requester through when the event has no owner. -/
def dashboard (db : DB) (slug : String) (requester : Option Nat) : DashOutcome :=
  match requester with
  | none => .unauthorized
  | some userId =>
    match db.events.find? (fun e => e.slug == slug) with
    | none => .eventNotFound
    | some event =>
      if event.user_id.isSome ∧ event.user_id ≠ some userId then .forbidden
      else .ok (dashboardData db event)

/-- One state transition of the subsystem: any call to register,
cancel, manual check-in or QR check-in, with arbitrary arguments. -/
inductive Step : DB → DB → Prop where
  | regStep (db : DB) (slug name email : String) (freshId freshToken now : Nat) :
      Step db (register db slug name email freshId freshToken now).2
  | cancelStep (db : DB) (attendeeId token : Nat) :
      Step db (cancel db attendeeId token).2
  | checkInStep (db : DB) (attendeeId now : Nat) :
      Step db (checkIn db attendeeId now).2
  | qrStep (db : DB) (qrData : Option QrParsed) (now : Nat) :
      Step db (checkInByQr db qrData now).2

/-- States reachable by any sequence of the four operations from a
state with no attendee rows (events and waitlist arbitrary). -/
inductive Reach : DB → Prop where
  | init (events : List Event) (waitlist : List WaitlistEntry) :
      Reach { events := events, attendees := [], waitlist := waitlist }
  | step {db db2 : DB} : Reach db → Step db db2 → Reach db2

/-- The direction of the C3 invariant that does hold: every checked-in
attendee has a check-in timestamp. -/
def CheckedInHasTimestamp (db : DB) : Prop :=
  ∀ a ∈ db.attendees, a.checked_in = true → a.checked_in_at.isSome = true

/-- Event used by the C4 witness. -/
def w4ev : Event :=
  { id := 10, slug := "ev", capacity := 5, status := "published", user_id := none }

/-- Database for the C4 witness: one published event, nobody
registered yet. -/
def w4db : DB := { events := [w4ev], attendees := [], waitlist := [] }

/-- Concrete attendee used by the check-in witnesses. -/
def w5att : Attendee :=
  { id := 1, event_id := 10, name := "Ann", email := "a@x", qr_code := "q",
    cancel_token := 7, checked_in := false, checked_in_at := none,
    cancelled := false, created_at := 0 }

/-- Concrete one-attendee database used by the C5 witness. -/
def w5db : DB := { events := [], attendees := [w5att], waitlist := [] }

/-- Concrete event used by the witnesses. -/
def w6ev : Event :=
  { id := 10, slug := "ev", capacity := 5, status := "published", user_id := none }

/-- Concrete cancelled attendee used by the C6 and C7 witnesses. -/
def w6att : Attendee :=
  { id := 1, event_id := 10, name := "Ann", email := "a@x", qr_code := "q",
    cancel_token := 7, checked_in := false, checked_in_at := none,
    cancelled := true, created_at := 0 }

/-- Concrete database used by the C6 witness. -/
def w6db : DB := { events := [w6ev], attendees := [w6att], waitlist := [] }

/-- A draft event used to refute C1 as stated over all events. -/
def c1ev : Event :=
  { id := 10, slug := "ev", capacity := 5, status := "draft", user_id := none }

/-- Database with one draft event and no attendees. -/
def c1db : DB := { events := [c1ev], attendees := [], waitlist := [] }

/-- A published capacity-1 event used by the C1 witness. -/
def w1ev : Event :=
  { id := 10, slug := "ev", capacity := 1, status := "published", user_id := none }

/-- Database with one published event and no attendees. -/
def w1db : DB := { events := [w1ev], attendees := [], waitlist := [] }

/-- Published event for the reactivation traces. -/
def rev : Event :=
  { id := 10, slug := "ev", capacity := 5, status := "published", user_id := none }

/-- Trace start: one published event, no attendees, no waitlist. -/
def rdb0 : DB := { events := [rev], attendees := [], waitlist := [] }

/-- After registering Ann (id 1, token 100, at time 0). -/
def rdb1 : DB := (register rdb0 "ev" "Ann" "a@x" 1 100 0).2

/-- After checking Ann in at time 5. -/
def rdb2 : DB := (checkIn rdb1 1 5).2

/-- After Ann cancels with her token. -/
def rdb3 : DB := (cancel rdb2 1 100).2

/-- After Ann re-registers (reactivation) at time 9. -/
def rdb4 : DB := (register rdb3 "ev" "Ann" "a@x" 2 200 9).2

/-- The single attendee record the trace ends with: reactivated, not
checked in, yet still carrying the pre-cancellation check-in
timestamp. -/
def rbad : Attendee :=
  { id := 1, event_id := 10, name := "Ann", email := "a@x",
    qr_code := qrEncode 1 10 "Ann" "a@x", cancel_token := 100,
    checked_in := false, checked_in_at := some 5, cancelled := false, created_at := 0 }

/-- Event, attendees and database for the C2 witness: capacity 1,
already holding one active attendee, plus a cancelled record. -/
def w2ev : Event :=
  { id := 10, slug := "ev", capacity := 1, status := "published", user_id := none }

/-- The active attendee filling the C2 witness event to capacity. -/
def w2a : Attendee :=
  { id := 1, event_id := 10, name := "Bob", email := "b@x", qr_code := "q",
    cancel_token := 5, checked_in := false, checked_in_at := none,
    cancelled := false, created_at := 0 }

/-- The cancelled attendee the C2 witness reactivates. -/
def w2b : Attendee :=
  { id := 2, event_id := 10, name := "Cat", email := "c@x", qr_code := "q",
    cancel_token := 6, checked_in := false, checked_in_at := none,
    cancelled := true, created_at := 1 }

/-- Database for the C2 witness. -/
def w2db : DB := { events := [w2ev], attendees := [w2a, w2b], waitlist := [] }

/-- Concrete database used by the C7 witness: one cancelled attendee. -/
def w7db : DB := { events := [], attendees := [w6att], waitlist := [] }

/-- The attendee whose cancellations drive the C8 witness. -/
def c8att : Attendee :=
  { id := 1, event_id := 20, name := "Ann", email := "a@x", qr_code := "q",
    cancel_token := 7, checked_in := false, checked_in_at := none,
    cancelled := false, created_at := 0 }

/-- Waitlist entry joined at time 5, not yet notified. -/
def c8w1 : WaitlistEntry :=
  { id := 30, event_id := 20, name := "W1", email := "w1@x", notified := false,
    created_at := 5 }

/-- Waitlist entry joined at time 3, not yet notified — the oldest
unnotified one. -/
def c8w2 : WaitlistEntry :=
  { id := 31, event_id := 20, name := "W2", email := "w2@x", notified := false,
    created_at := 3 }

/-- Waitlist entry joined at time 1 and already notified. -/
def c8w3 : WaitlistEntry :=
  { id := 32, event_id := 20, name := "W3", email := "w3@x", notified := true,
    created_at := 1 }

/-- Database for the C8 witness. -/
def c8db : DB := { events := [], attendees := [c8att], waitlist := [c8w1, c8w2, c8w3] }

/-- The already-cancelled attendee of the C10 witness. -/
def c10att : Attendee :=
  { id := 1, event_id := 20, name := "Ann", email := "a@x", qr_code := "q",
    cancel_token := 7, checked_in := false, checked_in_at := none,
    cancelled := true, created_at := 0 }

/-- Database for the C10 witness: a cancelled attendee and two
unnotified waitlist entries. -/
def c10db : DB := { events := [], attendees := [c10att], waitlist := [c8w1, c8w2] }

/-- Owned event for the C9 witness. -/
def w9ev : Event :=
  { id := 10, slug := "ev", capacity := 5, status := "published", user_id := some 42 }

/-- Database for the C9 witness. -/
def w9db : DB := { events := [w9ev], attendees := [], waitlist := [] }

/-!
Shallow embedding of the registration / capacity / waitlist / check-in
subsystem of the Gather event-RSVP application (routes/api.js, the
session-based router), modelled over an explicit database state.

SQL rows become Lean structures; `SELECT ... WHERE` with a single
expected row becomes `List.find?`; `COUNT(*)` becomes `List.countP`;
`UPDATE ... WHERE id = ?` becomes `List.map` guarded by the id;
`INSERT` appends to the list.  Column defaults for attendees follow the
data model (cancelled defaults to false, checked_in to false,
checked_in_at to unset); the current schema file is not part of the
sources, only the old pre-waitlist schema is, so those defaults are
taken from the documented data model.
-/

/-! ## General list lemmas used by several proofs -/

/-- When a map leaves the searched-for predicate invariant, the first
match of the mapped list is the image of the first match. -/
theorem find?_map_invariant {α : Type} {f : α → α} {p : α → Bool}
    (hp : ∀ a, p (f a) = p a) :
    ∀ {l : List α} {x : α}, l.find? p = some x → (l.map f).find? p = some (f x) := by
  intro l
  induction l with
  | nil => intro x h; simp [List.find?] at h
  | cons a t ih =>
    intro x h
    rw [List.find?_cons] at h
    cases hpa : p a with
    | true =>
      rw [hpa] at h
      cases h
      simp only [List.map_cons, List.find?_cons, hp, hpa]
    | false =>
      rw [hpa] at h
      simp only [List.map_cons, List.find?_cons, hp, hpa]
      exact ih h

/-- Searching an appended list when the first part has no match. -/
theorem find?_append_of_none {α : Type} {p : α → Bool} {l₁ l₂ : List α}
    (h : l₁.find? p = none) : (l₁ ++ l₂).find? p = l₂.find? p := by
  rw [List.find?_append, h, Option.none_or]

/-- The first match of a find? satisfies the predicate, specialised to
the id lookup used by the attendee routes. -/
theorem find?_id_beq {l : List Attendee} {attendeeId : Nat} {a : Attendee}
    (h : l.find? (fun x => x.id == attendeeId) = some a) : (a.id == attendeeId) = true := by
  have := List.find?_some h
  simpa using this

/-! ## C4: duplicate registration -/

/-- The duplicate branch of the register route: a found, non-cancelled
record for (event, email) yields the duplicate error and leaves the
database untouched. -/
theorem register_duplicate (db : DB) (slug name email : String) (fid ftok now : Nat)
    (event : Event) (ex : Attendee)
    (hev : db.events.find? (fun e => e.slug == slug) = some event)
    (hs1 : (event.status == "cancelled") = false) (hs2 : (event.status == "draft") = false)
    (hname : name ≠ "") (hemail : email ≠ "")
    (hfound : db.attendees.find? (fun a => a.event_id == event.id && a.email == email)
        = some ex)
    (hcanc : ex.cancelled = false) :
    register db slug name email fid ftok now = (.error .duplicate, db) := by
  have hcond : ¬(name = "" ∨ email = "") := by simp [hname, hemail]
  simp [register, if_neg hcond, hev, hs1, hs2, hfound, hcanc]

/-- Claim C4: once a register call for (event, email) has succeeded —
fresh or reactivating — an immediately following register call for the
same (event, email) fails with the duplicate error and returns the
database unchanged (attendees and waitlist included). -/
theorem register_duplicate_after_success (db : DB) (slug name email name2 : String)
    (freshId freshToken now freshId2 freshToken2 now2 : Nat)
    (hname2 : name2 ≠ "")
    (hsuc : (register db slug name email freshId freshToken now).1.isSuccess = true) :
    register (register db slug name email freshId freshToken now).2 slug name2 email
      freshId2 freshToken2 now2 =
      (.error .duplicate, (register db slug name email freshId freshToken now).2) := by
  by_cases h0 : name = "" ∨ email = ""
  · simp [register, if_pos h0, RegOutcome.isSuccess] at hsuc
  · have hemail : email ≠ "" := fun h => h0 (Or.inr h)
    cases hev : db.events.find? (fun e => e.slug == slug) with
    | none => simp [register, if_neg h0, hev, RegOutcome.isSuccess] at hsuc
    | some event =>
      cases hst1 : event.status == "cancelled" with
      | true => simp [register, if_neg h0, hev, hst1, RegOutcome.isSuccess] at hsuc
      | false =>
        cases hst2 : event.status == "draft" with
        | true => simp [register, if_neg h0, hev, hst1, hst2, RegOutcome.isSuccess] at hsuc
        | false =>
          cases hfind : db.attendees.find?
              (fun a => a.event_id == event.id && a.email == email) with
          | some existing =>
            cases hcanc : existing.cancelled with
            | false =>
              simp [register, if_neg h0, hev, hst1, hst2, hfind, hcanc,
                RegOutcome.isSuccess] at hsuc
            | true =>
              have hshape : (register db slug name email freshId freshToken now).2 =
                  { db with attendees := db.attendees.map (fun a =>
                    if a.id == existing.id then
                      { a with
                        cancelled := false
                        name := name
                        qr_code := qrEncode existing.id event.id name email
                        checked_in := false }
                    else a) } := by
                simp only [register, if_neg h0, hev, hst1, hst2, hfind, hcanc]
                rfl
              have hp : ∀ a : Attendee,
                  (((fun a : Attendee =>
                      if a.id == existing.id then
                        { a with
                          cancelled := false
                          name := name
                          qr_code := qrEncode existing.id event.id name email
                          checked_in := false }
                      else a) a).event_id == event.id &&
                    ((fun a : Attendee =>
                      if a.id == existing.id then
                        { a with
                          cancelled := false
                          name := name
                          qr_code := qrEncode existing.id event.id name email
                          checked_in := false }
                      else a) a).email == email)
                   = (a.event_id == event.id && a.email == email) := by
                intro a
                by_cases hid : (a.id == existing.id) = true
                · simp [hid]
                · simp [hid]
              have hmap := find?_map_invariant hp hfind
              simp only [] at hmap
              have hfex : (existing.id == existing.id) = true := by simp
              rw [if_pos hfex] at hmap
              rw [hshape]
              exact register_duplicate _ slug name2 email freshId2 freshToken2 now2 event
                _ hev hst1 hst2 hname2 hemail hmap rfl
          | none =>
            cases hcap : decide (event.capacity ≤ (db.attendees.countP
                (fun a => a.event_id == event.id && !a.cancelled) : Int)) with
            | true =>
              have hcap2 := of_decide_eq_true hcap
              simp [register, if_neg h0, hev, hst1, hst2, hfind, hcap2,
                RegOutcome.isSuccess] at hsuc
            | false =>
              have hcap2 := of_decide_eq_false hcap
              have hshape : (register db slug name email freshId freshToken now).2 =
                  { db with attendees := db.attendees ++
                    [{ id := freshId, event_id := event.id, name := name, email := email,
                       qr_code := qrEncode freshId event.id name email,
                       cancel_token := freshToken, checked_in := false,
                       checked_in_at := none, cancelled := false, created_at := now }] } := by
                simp only [register, if_neg h0, hev, hst1, hst2, hfind, if_neg hcap2]
                rfl
              rw [hshape]
              have happ := @find?_append_of_none Attendee
                (fun a : Attendee => a.event_id == event.id && a.email == email)
                db.attendees
                [{ id := freshId, event_id := event.id, name := name, email := email,
                   qr_code := qrEncode freshId event.id name email,
                   cancel_token := freshToken, checked_in := false,
                   checked_in_at := none, cancelled := false, created_at := now }] hfind
              have hfind2 : List.find? (fun a => a.event_id == event.id && a.email == email)
                  (({ db with attendees := db.attendees ++
                  [{ id := freshId, event_id := event.id, name := name, email := email,
                     qr_code := qrEncode freshId event.id name email,
                     cancel_token := freshToken, checked_in := false,
                     checked_in_at := none, cancelled := false, created_at := now }] } : DB).attendees)
                  = some { id := freshId, event_id := event.id, name := name, email := email,
                           qr_code := qrEncode freshId event.id name email,
                           cancel_token := freshToken, checked_in := false,
                           checked_in_at := none, cancelled := false, created_at := now } := by
                simp only [happ]
                simp [List.find?]
              exact register_duplicate _ slug name2 email freshId2 freshToken2 now2 event
                _ hev hst1 hst2 hname2 hemail hfind2 rfl

/-- Witness for C4: Ann registers successfully, and the immediate
second registration with the same email fails with the duplicate error
leaving the state unchanged. -/
theorem register_duplicate_after_success_witness :
    (register w4db "ev" "Ann" "a@x" 1 100 0).1.isSuccess = true ∧
    register (register w4db "ev" "Ann" "a@x" 1 100 0).2 "ev" "Ann" "a@x" 2 200 3 =
      (.error .duplicate, (register w4db "ev" "Ann" "a@x" 1 100 0).2) := by
  exact ⟨rfl, register_duplicate_after_success w4db "ev" "Ann" "a@x" "Ann" 1 100 0 2 200 3
    (by decide) rfl⟩

/-! ## C5: manual check-in is idempotent -/

/-- Claim C5: for an existing attendee, checkIn is a no-op returning
the unchanged record when already checked in; otherwise it sets
checked_in and checked_in_at := now, and a second call returns the
stored record unchanged — checked_in true, checked_in_at still the
first call's timestamp — and leaves the database untouched. -/
theorem checkIn_idempotent (db : DB) (attendeeId now now2 : Nat) (a : Attendee)
    (hfind : db.attendees.find? (fun x => x.id == attendeeId) = some a) :
    (a.checked_in = true → checkIn db attendeeId now = (.alreadyCheckedIn a, db)) ∧
    (a.checked_in = false →
      (checkIn db attendeeId now).1 =
        .checkedIn { a with checked_in := true, checked_in_at := some now } ∧
      checkIn (checkIn db attendeeId now).2 attendeeId now2 =
        (.alreadyCheckedIn { a with checked_in := true, checked_in_at := some now },
         (checkIn db attendeeId now).2)) := by
  have hp : ∀ x : Attendee,
      (((if x.id == attendeeId then
          { x with checked_in := true, checked_in_at := some now } else x).id) == attendeeId)
        = (x.id == attendeeId) := by
    intro x
    by_cases hx : (x.id == attendeeId) = true
    · simp [hx]
    · simp [hx]
  constructor
  · intro h
    simp [checkIn, hfind, h]
  · intro h
    have h1 : checkIn db attendeeId now =
        (.checkedIn { a with checked_in := true, checked_in_at := some now },
         { db with attendees := db.attendees.map (fun x =>
           if x.id == attendeeId then
             { x with checked_in := true, checked_in_at := some now } else x) }) := by
      simp [checkIn, hfind, h]
    have hpa : (a.id == attendeeId) = true := find?_id_beq hfind
    have hmap := find?_map_invariant hp hfind
    rw [hpa] at hmap
    refine ⟨by rw [h1], ?_⟩
    rw [h1]
    simp only [checkIn]
    rw [if_pos rfl] at hmap
    rw [hmap]
    rfl

/-- Witness for C5 on a one-attendee database: the first check-in at
time 8 succeeds, the second at time 9 is a no-op that keeps
checked_in_at = 8. -/
theorem checkIn_idempotent_witness :
    w5db.attendees.find? (fun x => x.id == 1) = some w5att ∧ w5att.checked_in = false ∧
    (checkIn w5db 1 8).1 = .checkedIn { w5att with checked_in := true, checked_in_at := some 8 } ∧
    checkIn (checkIn w5db 1 8).2 1 9 =
      (.alreadyCheckedIn { w5att with checked_in := true, checked_in_at := some 8 },
       (checkIn w5db 1 8).2) := by
  have h := (checkIn_idempotent w5db 1 8 9 w5att rfl).2 rfl
  exact ⟨rfl, rfl, h.1, h.2⟩

/-! ## C6: QR check-in rejects cancelled attendees -/

/-- Claim C6: a QR payload resolving to an existing attendee of an
existing event whose cancelled flag is set fails with RsvpCancelled and
leaves the whole database state, in particular the attendee record,
unchanged. -/
theorem checkInByQr_rejects_cancelled (db : DB) (attendeeId now : Nat) (a : Attendee)
    (hfind : db.attendees.find? (fun x => x.id == attendeeId) = some a)
    (hev : (db.events.find? (fun e => e.id == a.event_id)).isSome = true)
    (hcan : a.cancelled = true) :
    checkInByQr db (some { attendeeId := some attendeeId }) now = (.rsvpCancelled, db) := by
  obtain ⟨e, he⟩ := Option.isSome_iff_exists.mp hev
  simp [checkInByQr, hfind, he, hcan]

/-- Witness for C6: a cancelled attendee with a matching event is
rejected and the database is returned unchanged. -/
theorem checkInByQr_rejects_cancelled_witness :
    w6db.attendees.find? (fun x => x.id == 1) = some w6att ∧ w6att.cancelled = true ∧
    checkInByQr w6db (some { attendeeId := some 1 }) 8 = (.rsvpCancelled, w6db) := by
  exact ⟨rfl, rfl, checkInByQr_rejects_cancelled w6db 1 8 w6att rfl rfl rfl⟩

/-! ## C7: manual check-in ignores the cancelled flag -/

/-- Claim C7: the manual check-in path never consults cancelled — a
cancelled, not-yet-checked-in attendee is checked in successfully, and
the stored record afterwards has checked_in = true (and is still
cancelled). -/
theorem checkIn_ignores_cancelled (db : DB) (attendeeId now : Nat) (a : Attendee)
    (hfind : db.attendees.find? (fun x => x.id == attendeeId) = some a)
    (hcan : a.cancelled = true) (hnc : a.checked_in = false) :
    (checkIn db attendeeId now).1 =
      .checkedIn { a with checked_in := true, checked_in_at := some now } ∧
    (checkIn db attendeeId now).2.attendees.find? (fun x => x.id == attendeeId) =
      some { a with checked_in := true, checked_in_at := some now } ∧
    ({ a with checked_in := true, checked_in_at := some now } : Attendee).cancelled = true := by
  have hp : ∀ x : Attendee,
      (((if x.id == attendeeId then
          { x with checked_in := true, checked_in_at := some now } else x).id) == attendeeId)
        = (x.id == attendeeId) := by
    intro x
    by_cases hx : (x.id == attendeeId) = true
    · simp [hx]
    · simp [hx]
  have hpa : (a.id == attendeeId) = true := find?_id_beq hfind
  have hmap := find?_map_invariant hp hfind
  rw [hpa, if_pos rfl] at hmap
  refine ⟨?_, ?_, hcan⟩
  · simp [checkIn, hfind, hnc]
  · simp only [checkIn, hfind, hnc]
    simpa using hmap

/-! ## C1: fresh registration is capacity-gated -/

/-- Claim C1 (amended to events that are neither cancelled nor draft,
where the route does reach the capacity check): with no existing record
for (event, email), register succeeds exactly when the non-cancelled
count is below capacity, fails with the capacity error when the count
has reached capacity, and a successful fresh registration leaves the
non-cancelled count at most the capacity. -/
theorem register_fresh_capacity (db : DB) (slug name email : String)
    (freshId freshToken now : Nat) (event : Event)
    (hev : db.events.find? (fun e => e.slug == slug) = some event)
    (hs1 : event.status ≠ "cancelled") (hs2 : event.status ≠ "draft")
    (hname : name ≠ "") (hemail : email ≠ "")
    (hnone : db.attendees.find? (fun a => a.event_id == event.id && a.email == email) = none) :
    ((register db slug name email freshId freshToken now).1.isSuccess = true
       ↔ (activeCount db event.id : Int) < event.capacity) ∧
    (event.capacity ≤ (activeCount db event.id : Int) →
       (register db slug name email freshId freshToken now).1 = .error .capacityFull) ∧
    ((activeCount db event.id : Int) < event.capacity →
       (activeCount (register db slug name email freshId freshToken now).2 event.id : Int)
         ≤ event.capacity) := by
  have hcond : ¬(name = "" ∨ email = "") := by simp [hname, hemail]
  have hbeq1 : (event.status == "cancelled") = false := by simp [hs1]
  have hbeq2 : (event.status == "draft") = false := by simp [hs2]
  have hshape : register db slug name email freshId freshToken now =
      if event.capacity ≤ (activeCount db event.id : Int) then (.error .capacityFull, db)
      else (.fresh freshId name email (qrEncode freshId event.id name email) freshToken,
        { db with attendees := db.attendees ++
          [{ id := freshId, event_id := event.id, name := name, email := email,
             qr_code := qrEncode freshId event.id name email, cancel_token := freshToken,
             checked_in := false, checked_in_at := none, cancelled := false,
             created_at := now }] }) := by
    simp only [register, if_neg hcond, hev, hbeq1, hbeq2, hnone, activeCount]
    rfl
  rw [hshape]
  by_cases hc : event.capacity ≤ (activeCount db event.id : Int)
  · rw [if_pos hc]
    refine ⟨?_, fun _ => rfl, fun hlt => absurd hlt (by omega)⟩
    simp only [RegOutcome.isSuccess]
    constructor
    · intro h; cases h
    · intro h; omega
  · rw [if_neg hc]
    refine ⟨?_, fun h => absurd h hc, fun _ => ?_⟩
    · simp only [RegOutcome.isSuccess]
      constructor
      · intro _; omega
      · intro _; trivial
    · have hc2 : activeCount { db with attendees := db.attendees ++
          [{ id := freshId, event_id := event.id, name := name, email := email,
             qr_code := qrEncode freshId event.id name email, cancel_token := freshToken,
             checked_in := false, checked_in_at := none, cancelled := false,
             created_at := now }] } event.id = activeCount db event.id + 1 := by
        simp [activeCount, List.countP_append, List.countP_cons]
      rw [hc2]
      push_cast
      omega

/-- Counterexample to C1 as stated: on a draft event with no attendee
record for the email and a non-cancelled count strictly below capacity,
register nonetheless fails (with the draft error, not with capacity
exceeded), so success is not equivalent to count < capacity over all
events. -/
theorem register_draft_counterexample :
    c1db.attendees.find? (fun a => a.event_id == 10 && a.email == "a@x") = none ∧
    (activeCount c1db 10 : Int) < c1ev.capacity ∧
    (register c1db "ev" "Ann" "a@x" 1 100 0).1 = .error .eventDraft ∧
    ((register c1db "ev" "Ann" "a@x" 1 100 0).1).isSuccess = false := by
  exact ⟨rfl, by decide, rfl, rfl⟩

/-- Witness for the amended C1 on a published capacity-1 event with no
attendees: the success-iff-below-capacity equivalence and the
post-registration bound, instantiated. -/
theorem register_fresh_capacity_witness :
    w1db.events.find? (fun e => e.slug == "ev") = some w1ev ∧
    w1db.attendees.find? (fun a => a.event_id == w1ev.id && a.email == "a@x") = none ∧
    ((register w1db "ev" "Ann" "a@x" 1 100 0).1.isSuccess = true ↔
      (activeCount w1db w1ev.id : Int) < w1ev.capacity) ∧
    ((activeCount w1db w1ev.id : Int) < w1ev.capacity →
      (activeCount (register w1db "ev" "Ann" "a@x" 1 100 0).2 w1ev.id : Int) ≤ w1ev.capacity) := by
  have h := register_fresh_capacity w1db "ev" "Ann" "a@x" 1 100 0 w1ev rfl
    (by decide) (by decide) (by decide) (by decide) rfl
  exact ⟨rfl, rfl, h.1, h.2.2⟩

/-! ## C2: re-registering a cancelled attendee reactivates it -/

/-- Claim C2 (amended: the update clears cancelled, resets checked_in,
stores a fresh QR payload and the new name, but leaves checked_in_at
untouched): re-registering a cancelled (event, email) reactivates the
record without any capacity check — there is no capacity hypothesis
here, the conclusion holds at or above capacity as well. -/
theorem register_reactivates (db : DB) (slug name email : String)
    (freshId freshToken now : Nat) (event : Event) (existing : Attendee)
    (hev : db.events.find? (fun e => e.slug == slug) = some event)
    (hs1 : event.status ≠ "cancelled") (hs2 : event.status ≠ "draft")
    (hname : name ≠ "") (hemail : email ≠ "")
    (hfound : db.attendees.find? (fun a => a.event_id == event.id && a.email == email)
        = some existing)
    (hcan : existing.cancelled = true) :
    (register db slug name email freshId freshToken now).1 =
      .reactivated existing.id name email (qrEncode existing.id event.id name email) ∧
    (register db slug name email freshId freshToken now).2.attendees =
      db.attendees.map (fun a =>
        if a.id == existing.id then
          { a with
            cancelled := false
            name := name
            qr_code := qrEncode existing.id event.id name email
            checked_in := false }
        else a) ∧
    (∀ a ∈ (register db slug name email freshId freshToken now).2.attendees,
      ∃ b ∈ db.attendees, a.checked_in_at = b.checked_in_at) ∧
    (register db slug name email freshId freshToken now).2.waitlist = db.waitlist ∧
    (register db slug name email freshId freshToken now).2.events = db.events := by
  have hcond : ¬(name = "" ∨ email = "") := by simp [hname, hemail]
  have hbeq1 : (event.status == "cancelled") = false := by simp [hs1]
  have hbeq2 : (event.status == "draft") = false := by simp [hs2]
  have hshape : register db slug name email freshId freshToken now =
      (.reactivated existing.id name email (qrEncode existing.id event.id name email),
       { db with attendees := db.attendees.map (fun a =>
          if a.id == existing.id then
            { a with
              cancelled := false
              name := name
              qr_code := qrEncode existing.id event.id name email
              checked_in := false }
          else a) }) := by
    simp only [register, if_neg hcond, hev, hbeq1, hbeq2, hfound, hcan]
    rfl
  rw [hshape]
  refine ⟨rfl, rfl, ?_, rfl, rfl⟩
  intro a ha
  rcases List.mem_map.mp ha with ⟨b, hb, rfl⟩
  refine ⟨b, hb, ?_⟩
  by_cases hid : (b.id == existing.id) = true
  · simp [hid]
  · simp [hid]

/-- Counterexample to C2 as stated: after check-in at time 5, cancel,
and re-register, the reactivated record has checked_in = false but
checked_in_at still set to 5 — reactivation does not reset
checked_in_at to unset. -/
theorem register_reactivate_keeps_checked_in_at :
    (register rdb3 "ev" "Ann" "a@x" 2 200 9).1 =
      .reactivated 1 "Ann" "a@x" (qrEncode 1 10 "Ann" "a@x") ∧
    rdb4.attendees = [rbad] ∧ rbad.checked_in = false ∧ rbad.checked_in_at = some 5 := by
  exact ⟨rfl, rfl, rfl, rfl⟩

/-- Witness for the amended C2: the event is at capacity (count 1 of
capacity 1) and reactivation still succeeds, with a fresh QR payload
and the new name. -/
theorem register_reactivates_witness :
    w2db.attendees.find? (fun a => a.event_id == 10 && a.email == "c@x") = some w2b ∧
    w2b.cancelled = true ∧
    w2ev.capacity ≤ (activeCount w2db 10 : Int) ∧
    (register w2db "ev" "Cat2" "c@x" 3 300 7).1 =
      .reactivated 2 "Cat2" "c@x" (qrEncode 2 10 "Cat2" "c@x") := by
  have h := register_reactivates w2db "ev" "Cat2" "c@x" 3 300 7 w2ev w2b rfl
    (by decide) (by decide) (by decide) (by decide) rfl rfl
  exact ⟨rfl, rfl, by decide, h.1⟩

/-- Witness for C7: a cancelled attendee is checked in by id. -/
theorem checkIn_ignores_cancelled_witness :
    w7db.attendees.find? (fun x => x.id == 1) = some w6att ∧
    w6att.cancelled = true ∧ w6att.checked_in = false ∧
    (checkIn w7db 1 8).1 = .checkedIn { w6att with checked_in := true, checked_in_at := some 8 } ∧
    (checkIn w7db 1 8).2.attendees.find? (fun x => x.id == 1) =
      some { w6att with checked_in := true, checked_in_at := some 8 } := by
  have h := checkIn_ignores_cancelled w7db 1 8 w6att rfl rfl rfl
  exact ⟨rfl, rfl, rfl, h.1, h.2.1⟩

/-! ## C3: the checked_in / checked_in_at invariant -/

/-- register preserves the checked-in-has-timestamp invariant: fresh
rows start not checked in, reactivation resets checked_in to false. -/
theorem register_preserves_cts (db : DB) (slug name email : String) (i t n : Nat)
    (h : CheckedInHasTimestamp db) :
    CheckedInHasTimestamp (register db slug name email i t n).2 := by
  by_cases h0 : name = "" ∨ email = ""
  · simpa [register, if_pos h0] using h
  · cases hev : db.events.find? (fun e => e.slug == slug) with
    | none => simpa [register, if_neg h0, hev] using h
    | some event =>
      cases hst1 : event.status == "cancelled" with
      | true => simpa [register, if_neg h0, hev, hst1] using h
      | false =>
        cases hst2 : event.status == "draft" with
        | true => simpa [register, if_neg h0, hev, hst1, hst2] using h
        | false =>
          cases hfind : db.attendees.find?
              (fun a => a.event_id == event.id && a.email == email) with
          | some existing =>
            cases hcanc : existing.cancelled with
            | false => simpa [register, if_neg h0, hev, hst1, hst2, hfind, hcanc] using h
            | true =>
              intro a ha hchk
              simp [register, if_neg h0, hev, hst1, hst2, hfind, hcanc] at ha
              rcases ha with ⟨b, hb, rfl⟩
              by_cases hid : b.id = existing.id
              · simp [hid] at hchk
              · simp [hid] at hchk ⊢
                exact h b hb hchk
          | none =>
            by_cases hcap : event.capacity ≤ (db.attendees.countP
                (fun a => a.event_id == event.id && !a.cancelled) : Int)
            · simpa [register, if_neg h0, hev, hst1, hst2, hfind, hcap] using h
            · intro a ha hchk
              simp [register, if_neg h0, hev, hst1, hst2, hfind, hcap] at ha
              rcases ha with ha | rfl
              · exact h a ha hchk
              · simp at hchk

/-- cancel preserves the invariant: it only flips cancelled and
notified flags, never the check-in fields. -/
theorem cancel_preserves_cts (db : DB) (aid tok : Nat)
    (h : CheckedInHasTimestamp db) :
    CheckedInHasTimestamp (cancel db aid tok).2 := by
  cases hfind : db.attendees.find? (fun a => a.id == aid) with
  | none => simpa [cancel, hfind] using h
  | some attendee =>
    by_cases htok : attendee.cancel_token ≠ tok
    · simpa [cancel, hfind, htok] using h
    · cases hold : oldestUnnotified attendee.event_id db.waitlist with
      | none =>
        intro a ha hchk
        simp [cancel, hfind, htok, hold] at ha
        rcases ha with ⟨b, hb, rfl⟩
        by_cases hid : b.id = aid
        · simp [hid] at hchk ⊢
          exact h b hb hchk
        · simp [hid] at hchk ⊢
          exact h b hb hchk
      | some w =>
        intro a ha hchk
        simp [cancel, hfind, htok, hold] at ha
        rcases ha with ⟨b, hb, rfl⟩
        by_cases hid : b.id = aid
        · simp [hid] at hchk ⊢
          exact h b hb hchk
        · simp [hid] at hchk ⊢
          exact h b hb hchk

/-- Manual check-in preserves the invariant: it sets checked_in and
checked_in_at together. -/
theorem checkIn_preserves_cts (db : DB) (aid now : Nat)
    (h : CheckedInHasTimestamp db) :
    CheckedInHasTimestamp (checkIn db aid now).2 := by
  cases hfind : db.attendees.find? (fun a => a.id == aid) with
  | none => simpa [checkIn, hfind] using h
  | some attendee =>
    cases hchk0 : attendee.checked_in with
    | true => simpa [checkIn, hfind, hchk0] using h
    | false =>
      intro a ha hc
      simp [checkIn, hfind, hchk0] at ha
      rcases ha with ⟨b, hb, rfl⟩
      by_cases hid : b.id = aid
      · simp [hid]
      · simp [hid] at hc ⊢
        exact h b hb hc

/-- QR check-in preserves the invariant for the same reason. -/
theorem checkInByQr_preserves_cts (db : DB) (qrData : Option QrParsed) (now : Nat)
    (h : CheckedInHasTimestamp db) :
    CheckedInHasTimestamp (checkInByQr db qrData now).2 := by
  cases qrData with
  | none => simpa [checkInByQr] using h
  | some parsed =>
    cases hpid : parsed.attendeeId with
    | none => simpa [checkInByQr, hpid] using h
    | some aid =>
      cases hfind : db.attendees.find? (fun a => a.id == aid) with
      | none => simpa [checkInByQr, hpid, hfind] using h
      | some attendee =>
        cases hev : db.events.find? (fun e => e.id == attendee.event_id) with
        | none => simpa [checkInByQr, hpid, hfind, hev] using h
        | some event =>
          cases hcanc : attendee.cancelled with
          | true => simpa [checkInByQr, hpid, hfind, hev, hcanc] using h
          | false =>
            cases hchk0 : attendee.checked_in with
            | true => simpa [checkInByQr, hpid, hfind, hev, hcanc, hchk0] using h
            | false =>
              intro a ha hc
              simp [checkInByQr, hpid, hfind, hev, hcanc, hchk0] at ha
              rcases ha with ⟨b, hb, rfl⟩
              by_cases hid : b.id = aid
              · simp [hid]
              · simp [hid] at hc ⊢
                exact h b hb hc

/-- Claim C3 (amended to the direction that holds): in every state
reachable by any sequence of register, cancel, checkIn and
checkInByQr calls, every attendee with checked_in = true has
checked_in_at set.  The converse direction is refuted by the
reactivation counterexample. -/
theorem reach_checked_in_has_timestamp (db : DB) (h : Reach db) :
    CheckedInHasTimestamp db := by
  induction h with
  | init events waitlist =>
    intro a ha
    exact absurd ha (List.not_mem_nil a)
  | step hr hs ih =>
    cases hs with
    | regStep slug name email i t n => exact register_preserves_cts _ slug name email i t n ih
    | cancelStep aid tok => exact cancel_preserves_cts _ aid tok ih
    | checkInStep aid now => exact checkIn_preserves_cts _ aid now ih
    | qrStep qr now => exact checkInByQr_preserves_cts _ qr now ih

/-- Counterexample to C3 as stated: the state rdb4 is reachable by
register, checkIn, cancel, register, and its only attendee has
checked_in = false while checked_in_at is set — the claimed
if-and-only-if fails. -/
theorem reach_checked_in_at_iff_fails :
    Reach rdb4 ∧ rdb4.attendees = [rbad] ∧
    ¬(rbad.checked_in_at.isSome = true ↔ rbad.checked_in = true) := by
  refine ⟨?_, rfl, by decide⟩
  have h0 : Reach rdb0 := Reach.init [rev] []
  have h1 : Reach rdb1 := Reach.step h0 (Step.regStep rdb0 "ev" "Ann" "a@x" 1 100 0)
  have h2 : Reach rdb2 := Reach.step h1 (Step.checkInStep rdb1 1 5)
  have h3 : Reach rdb3 := Reach.step h2 (Step.cancelStep rdb2 1 100)
  exact Reach.step h3 (Step.regStep rdb3 "ev" "Ann" "a@x" 2 200 9)

/-- Witness for the amended C3: the state after registering and
checking Ann in is reachable, and the invariant holds there. -/
theorem reach_checked_in_has_timestamp_witness :
    Reach rdb2 ∧ CheckedInHasTimestamp rdb2 := by
  have h0 : Reach rdb0 := Reach.init [rev] []
  have h1 : Reach rdb1 := Reach.step h0 (Step.regStep rdb0 "ev" "Ann" "a@x" 1 100 0)
  have h2 : Reach rdb2 := Reach.step h1 (Step.checkInStep rdb1 1 5)
  exact ⟨h2, reach_checked_in_has_timestamp rdb2 h2⟩

/-! ## Waitlist selector lemmas -/

/-- The fold result is the accumulator or a list element. -/
theorem pickOlder_mem : ∀ (l : List WaitlistEntry) (acc : Option WaitlistEntry)
    (r : WaitlistEntry), l.foldl pickOlder acc = some r → acc = some r ∨ r ∈ l := by
  intro l
  induction l with
  | nil => intro acc r h; exact Or.inl h
  | cons a t ih =>
    intro acc r h
    rcases ih (pickOlder acc a) r h with h2 | h2
    · cases acc with
      | none =>
        simp [pickOlder] at h2
        exact Or.inr (h2 ▸ List.mem_cons_self a t)
      | some b =>
        by_cases hlt : a.created_at < b.created_at
        · simp [pickOlder, hlt] at h2
          exact Or.inr (h2 ▸ List.mem_cons_self a t)
        · simp [pickOlder, hlt] at h2
          exact Or.inl (by rw [h2])
    · exact Or.inr (List.mem_cons_of_mem a h2)

/-- The fold result is below the accumulator and every list element in
created_at order. -/
theorem pickOlder_min : ∀ (l : List WaitlistEntry) (acc : Option WaitlistEntry)
    (r : WaitlistEntry), l.foldl pickOlder acc = some r →
    (∀ b, acc = some b → r.created_at ≤ b.created_at) ∧
    (∀ v ∈ l, r.created_at ≤ v.created_at) := by
  intro l
  induction l with
  | nil =>
    intro acc r h
    refine ⟨fun b hb => ?_, fun v hv => absurd hv (List.not_mem_nil v)⟩
    rw [hb] at h
    cases h
    exact le_refl _
  | cons a t ih =>
    intro acc r h
    have H := ih (pickOlder acc a) r h
    have hhead : r.created_at ≤ a.created_at := by
      cases acc with
      | none => exact H.1 a (by simp [pickOlder])
      | some b =>
        by_cases hlt : a.created_at < b.created_at
        · exact H.1 a (by simp [pickOlder, hlt])
        · have := H.1 b (by simp [pickOlder, hlt])
          omega
    refine ⟨fun b hb => ?_, fun v hv => ?_⟩
    · subst hb
      by_cases hlt : a.created_at < b.created_at
      · have := H.1 a (by simp [pickOlder, hlt])
        omega
      · exact H.1 b (by simp [pickOlder, hlt])
    · rcases List.mem_cons.mp hv with rfl | hv2
      · exact hhead
      · exact H.2 v hv2

/-- The fold yields none only from none on the empty list. -/
theorem pickOlder_none : ∀ (l : List WaitlistEntry) (acc : Option WaitlistEntry),
    l.foldl pickOlder acc = none → acc = none ∧ l = [] := by
  intro l
  induction l with
  | nil => intro acc h; exact ⟨h, rfl⟩
  | cons a t ih =>
    intro acc h
    have H := ih (pickOlder acc a) h
    exfalso
    cases acc with
    | none => simp [pickOlder] at H
    | some b =>
      by_cases hlt : a.created_at < b.created_at
      · rw [show pickOlder (some b) a = some a from by simp [pickOlder, hlt]] at H
        cases H.1
      · rw [show pickOlder (some b) a = some b from by simp [pickOlder, hlt]] at H
        cases H.1

/-- What oldestUnnotified selects: a member of the waitlist for the
event, not yet notified, with minimal created_at among such entries. -/
theorem oldestUnnotified_spec (eventId : Nat) (wl : List WaitlistEntry)
    (w : WaitlistEntry) (h : oldestUnnotified eventId wl = some w) :
    w ∈ wl ∧ (w.event_id == eventId) = true ∧ w.notified = false ∧
    ∀ v ∈ wl, (v.event_id == eventId) = true → v.notified = false →
      w.created_at ≤ v.created_at := by
  have h' : (wl.filter (fun x => x.event_id == eventId && !x.notified)).foldl
      pickOlder none = some w := h
  rcases pickOlder_mem _ _ _ h' with h2 | h2
  · cases h2
  · have hf := List.mem_filter.mp h2
    have hmin := (pickOlder_min _ _ _ h').2
    have hp := hf.2
    rw [Bool.and_eq_true] at hp
    refine ⟨hf.1, hp.1, by simpa using hp.2, ?_⟩
    intro v hv hve hvn
    exact hmin v (List.mem_filter.mpr ⟨hv, by simp [hve, hvn]⟩)

/-- If some unnotified entry for the event exists, the selector
returns one. -/
theorem oldestUnnotified_isSome (eventId : Nat) (wl : List WaitlistEntry)
    (v : WaitlistEntry) (hv : v ∈ wl) (hve : (v.event_id == eventId) = true)
    (hvn : v.notified = false) : (oldestUnnotified eventId wl).isSome = true := by
  cases hold : oldestUnnotified eventId wl with
  | some w => rfl
  | none =>
    have h' : (wl.filter (fun x => x.event_id == eventId && !x.notified)).foldl
        pickOlder none = none := hold
    have hnil := (pickOlder_none _ _ h').2
    have hvf : v ∈ wl.filter (fun x => x.event_id == eventId && !x.notified) :=
      List.mem_filter.mpr ⟨hv, by simp [hve, hvn]⟩
    rw [hnil] at hvf
    cases hvf

/-- When the selector returns none, every entry of the event is
already notified. -/
theorem oldestUnnotified_none_all (eventId : Nat) (wl : List WaitlistEntry)
    (h : oldestUnnotified eventId wl = none) :
    ∀ v ∈ wl, (v.event_id == eventId) = true → v.notified = true := by
  intro v hv hve
  cases hvn : v.notified with
  | true => rfl
  | false =>
    exfalso
    have := oldestUnnotified_isSome eventId wl v hv hve hvn
    rw [h] at this
    cases this

/-! ## Counting lemmas for waitlist promotion -/

/-- Flipping one unnotified entry of the event raises the notified
count for the event by exactly one (waitlist ids assumed distinct, as
the primary key guarantees). -/
theorem countP_notified_flip (eid : Nat) (l : List WaitlistEntry) (w : WaitlistEntry)
    (hw : w ∈ l) (hnodup : (l.map (fun x => x.id)).Nodup)
    (hev : (w.event_id == eid) = true) (hn : w.notified = false) :
    (l.map (fun x => if x.id == w.id then { x with notified := true } else x)).countP
      (fun x => x.event_id == eid && x.notified)
    = l.countP (fun x => x.event_id == eid && x.notified) + 1 := by
  induction l with
  | nil => cases hw
  | cons a t ih =>
    rw [List.map_cons] at hnodup
    have hnd := List.nodup_cons.mp hnodup
    rcases List.mem_cons.mp hw with rfl | hwt
    · have htail : t.map (fun x => if x.id == w.id then { x with notified := true } else x)
          = t := by
        have hcong : ∀ x ∈ t,
            (if x.id == w.id then { x with notified := true } else x) = id x := by
          intro x hx
          have hne : x.id ≠ w.id := by
            intro hcon
            exact hnd.1 (hcon ▸ List.mem_map_of_mem (fun y => y.id) hx)
          simp [hne]
        rw [List.map_congr_left hcong, List.map_id]
      rw [List.map_cons, htail, List.countP_cons, List.countP_cons]
      simp [hev, hn]
    · have hane : a.id ≠ w.id := by
        intro hcon
        exact hnd.1 (hcon ▸ List.mem_map_of_mem (fun y => y.id) hwt)
      rw [List.map_cons, List.countP_cons, List.countP_cons, ih hwt hnd.2]
      have ha : (if a.id == w.id then ({ a with notified := true } : WaitlistEntry) else a)
          = a := by simp [hane]
      rw [ha]
      omega

/-- Flipping a notified flag does not change the per-event entry
count. -/
theorem countP_event_flip (eid wid : Nat) (l : List WaitlistEntry) :
    (l.map (fun x => if x.id == wid then { x with notified := true } else x)).countP
      (fun x => x.event_id == eid)
    = l.countP (fun x => x.event_id == eid) := by
  rw [List.countP_map]
  apply List.countP_congr
  intro x _
  by_cases hid : (x.id == wid) = true
  · simp [Function.comp, hid]
  · simp [Function.comp, hid]

/-- Flipping a notified flag preserves the id column. -/
theorem flip_map_ids (wid : Nat) (l : List WaitlistEntry) :
    ((l.map (fun x => if x.id == wid then { x with notified := true } else x)).map
      (fun x => x.id)) = l.map (fun x => x.id) := by
  rw [List.map_map]
  apply List.map_congr_left
  intro a _
  by_cases hid : (a.id == wid) = true
  · simp [Function.comp, hid]
  · simp [Function.comp, hid]

/-- Notified entries are a subset of the event's entries. -/
theorem notifiedCount_le (db : DB) (eid : Nat) :
    notifiedCount db eid ≤ waitlistCount db eid :=
  List.countP_mono_left (fun x _ hx => by
    rw [Bool.and_eq_true] at hx
    exact hx.1)

/-- An unnotified entry for the event witnesses a strict gap between
the notified count and the total count. -/
theorem countP_notified_lt (eid : Nat) (l : List WaitlistEntry) (w : WaitlistEntry)
    (hw : w ∈ l) (hev : (w.event_id == eid) = true) (hn : w.notified = false) :
    l.countP (fun x => x.event_id == eid && x.notified) <
      l.countP (fun x => x.event_id == eid) := by
  induction l with
  | nil => cases hw
  | cons a t ih =>
    rw [List.countP_cons, List.countP_cons]
    rcases List.mem_cons.mp hw with rfl | hwt
    · have hle : t.countP (fun x => x.event_id == eid && x.notified)
          ≤ t.countP (fun x => x.event_id == eid) :=
        List.countP_mono_left (fun x _ hx => by
          rw [Bool.and_eq_true] at hx
          exact hx.1)
      simp [hev, hn]
      omega
    · have hlt := ih hwt
      cases hpa : (a.event_id == eid) with
      | true =>
        cases hna : a.notified with
        | true => simp [hpa, hna]; omega
        | false => simp [hpa, hna]; omega
      | false => simp [hpa]; omega

/-- When all of the event's entries are notified the two counts
agree. -/
theorem countP_notified_eq_of_all (eid : Nat) (l : List WaitlistEntry)
    (h : ∀ v ∈ l, (v.event_id == eid) = true → v.notified = true) :
    l.countP (fun x => x.event_id == eid && x.notified) =
      l.countP (fun x => x.event_id == eid) := by
  apply List.countP_congr
  intro x hx
  constructor
  · intro hq
    rw [Bool.and_eq_true] at hq
    exact hq.1
  · intro hp; rw [Bool.and_eq_true]; exact ⟨hp, h x hx hp⟩

/-! ## The effect of one cancel call on the waitlist counts -/

/-- One cancel call with a matching token: ok outcome, the attendee
record marked cancelled, waitlist ids and the per-event entry total
preserved, and the per-event notified count stepping to
min (count + 1) total. -/
theorem cancel_ok_step (db : DB) (aid tok eid : Nat) (a : Attendee)
    (hfind : db.attendees.find? (fun x => x.id == aid) = some a)
    (htok : a.cancel_token = tok)
    (heid : a.event_id = eid)
    (hnodup : (db.waitlist.map (fun x => x.id)).Nodup) :
    (cancel db aid tok).1 = .ok ∧
    (cancel db aid tok).2.attendees.find? (fun x => x.id == aid) =
      some { a with cancelled := true } ∧
    ((cancel db aid tok).2.waitlist.map (fun x => x.id)).Nodup ∧
    waitlistCount (cancel db aid tok).2 eid = waitlistCount db eid ∧
    notifiedCount (cancel db aid tok).2 eid =
      min (notifiedCount db eid + 1) (waitlistCount db eid) := by
  subst heid
  have htok2 : ¬(a.cancel_token ≠ tok) := by simp [htok]
  have hp : ∀ x : Attendee,
      (((if x.id == aid then { x with cancelled := true } else x).id) == aid)
        = (x.id == aid) := by
    intro x
    by_cases hx : (x.id == aid) = true
    · simp [hx]
    · simp [hx]
  have hpa : (a.id == aid) = true := find?_id_beq hfind
  have hmap := find?_map_invariant hp hfind
  rw [hpa, if_pos rfl] at hmap
  cases hold : oldestUnnotified a.event_id db.waitlist with
  | some w =>
    have hspec := oldestUnnotified_spec a.event_id db.waitlist w hold
    have hshape : cancel db aid tok =
        (.ok, { events := db.events,
                attendees := db.attendees.map (fun x =>
                  if x.id == aid then { x with cancelled := true } else x),
                waitlist := db.waitlist.map (fun x =>
                  if x.id == w.id then { x with notified := true } else x) }) := by
      simp only [cancel, hfind, if_neg htok2, hold]
    rw [hshape]
    refine ⟨rfl, hmap, ?_, ?_, ?_⟩
    · show ((db.waitlist.map (fun x =>
        if x.id == w.id then { x with notified := true } else x)).map
        (fun x => x.id)).Nodup
      rw [flip_map_ids]
      exact hnodup
    · exact countP_event_flip a.event_id w.id db.waitlist
    · have hflip := countP_notified_flip a.event_id db.waitlist w hspec.1 hnodup
        hspec.2.1 hspec.2.2.1
      have hlt := countP_notified_lt a.event_id db.waitlist w hspec.1
        hspec.2.1 hspec.2.2.1
      show (db.waitlist.map (fun x =>
          if x.id == w.id then { x with notified := true } else x)).countP
          (fun x => x.event_id == a.event_id && x.notified)
        = min (db.waitlist.countP (fun x => x.event_id == a.event_id && x.notified) + 1)
            (db.waitlist.countP (fun x => x.event_id == a.event_id))
      rw [hflip]
      omega
  | none =>
    have hall := oldestUnnotified_none_all a.event_id db.waitlist hold
    have heq := countP_notified_eq_of_all a.event_id db.waitlist hall
    have hshape : cancel db aid tok =
        (.ok, { events := db.events,
                attendees := db.attendees.map (fun x =>
                  if x.id == aid then { x with cancelled := true } else x),
                waitlist := db.waitlist }) := by
      simp only [cancel, hfind, if_neg htok2, hold]
    rw [hshape]
    refine ⟨rfl, hmap, hnodup, rfl, ?_⟩
    show db.waitlist.countP (fun x => x.event_id == a.event_id && x.notified)
      = min (db.waitlist.countP (fun x => x.event_id == a.event_id && x.notified) + 1)
          (db.waitlist.countP (fun x => x.event_id == a.event_id))
    omega

/-! ## C8: cancellation promotes the oldest unnotified entry -/

/-- Claim C8: a successful cancel on an event whose waitlist still has
an unnotified entry flips exactly one entry — a not-yet-notified entry
of minimal created_at — to notified, creating no attendee and removing
no waitlist entry; the selector can only ever return entries whose
notified flag is false, so an already promoted entry is never selected
by a later cancellation, and whenever some unnotified entry exists the
selector does return one. -/
theorem cancel_promotes_oldest (db : DB) (aid tok : Nat) (a : Attendee) (w : WaitlistEntry)
    (hfind : db.attendees.find? (fun x => x.id == aid) = some a)
    (htok : a.cancel_token = tok)
    (hnodup : (db.waitlist.map (fun x => x.id)).Nodup)
    (hw : oldestUnnotified a.event_id db.waitlist = some w) :
    (cancel db aid tok).1 = .ok ∧
    w ∈ db.waitlist ∧ (w.event_id == a.event_id) = true ∧ w.notified = false ∧
    (∀ v ∈ db.waitlist, (v.event_id == a.event_id) = true → v.notified = false →
      w.created_at ≤ v.created_at) ∧
    (cancel db aid tok).2.waitlist =
      db.waitlist.map (fun x => if x.id == w.id then { x with notified := true } else x) ∧
    notifiedCount (cancel db aid tok).2 a.event_id = notifiedCount db a.event_id + 1 ∧
    (cancel db aid tok).2.waitlist.length = db.waitlist.length ∧
    (cancel db aid tok).2.attendees.length = db.attendees.length ∧
    (∀ (eid : Nat) (wl : List WaitlistEntry) (v : WaitlistEntry),
      oldestUnnotified eid wl = some v → v.notified = false) ∧
    (∀ v ∈ db.waitlist, (v.event_id == a.event_id) = true → v.notified = false →
      (oldestUnnotified a.event_id db.waitlist).isSome = true) := by
  have htok2 : ¬(a.cancel_token ≠ tok) := by simp [htok]
  have hspec := oldestUnnotified_spec a.event_id db.waitlist w hw
  have hshape : cancel db aid tok =
      (.ok, { events := db.events,
              attendees := db.attendees.map (fun x =>
                if x.id == aid then { x with cancelled := true } else x),
              waitlist := db.waitlist.map (fun x =>
                if x.id == w.id then { x with notified := true } else x) }) := by
    simp only [cancel, hfind, if_neg htok2, hw]
  refine ⟨by rw [hshape], hspec.1, hspec.2.1, hspec.2.2.1, hspec.2.2.2, by rw [hshape],
    ?_, ?_, ?_, ?_, ?_⟩
  · rw [hshape]
    exact countP_notified_flip a.event_id db.waitlist w hspec.1 hnodup
      hspec.2.1 hspec.2.2.1
  · rw [hshape]
    exact List.length_map _ _
  · rw [hshape]
    exact List.length_map _ _
  · intro eid wl v hv
    exact (oldestUnnotified_spec eid wl v hv).2.2.1
  · intro v hv hve hvn
    exact oldestUnnotified_isSome a.event_id db.waitlist v hv hve hvn

/-- Witness for C8: cancelling Ann selects the unnotified entry with
the oldest created_at (time 3, not the already-notified time-1 entry),
bumps the notified count by one and removes nothing. -/
theorem cancel_promotes_oldest_witness :
    c8db.attendees.find? (fun x => x.id == 1) = some c8att ∧
    oldestUnnotified 20 c8db.waitlist = some c8w2 ∧
    c8w2.notified = false ∧
    (cancel c8db 1 7).1 = .ok ∧
    notifiedCount (cancel c8db 1 7).2 20 = notifiedCount c8db 20 + 1 ∧
    (cancel c8db 1 7).2.waitlist.length = c8db.waitlist.length ∧
    (cancel c8db 1 7).2.attendees.length = c8db.attendees.length := by
  have h := cancel_promotes_oldest c8db 1 7 c8att c8w2 rfl rfl (by decide) rfl
  exact ⟨rfl, rfl, rfl, h.1, h.2.2.2.2.2.2.1, h.2.2.2.2.2.2.2.1, h.2.2.2.2.2.2.2.2.1⟩

/-! ## C10: cancel is not guarded against repetition -/

/-- Iterating cancel steps the notified count by one per call until
the event's waitlist is exhausted. -/
theorem iterateCancel_notified (aid tok eid : Nat) : ∀ (n : Nat) (db : DB) (a : Attendee),
    db.attendees.find? (fun x => x.id == aid) = some a →
    a.cancel_token = tok → a.event_id = eid →
    (db.waitlist.map (fun x => x.id)).Nodup →
    notifiedCount (iterateCancel aid tok n db) eid =
      min (notifiedCount db eid + n) (waitlistCount db eid) := by
  intro n
  induction n with
  | zero =>
    intro db a hfind htok heid hnodup
    have hle := notifiedCount_le db eid
    simp only [iterateCancel]
    omega
  | succ n ih =>
    intro db a hfind htok heid hnodup
    have step := cancel_ok_step db aid tok eid a hfind htok heid hnodup
    have ih2 := ih (cancel db aid tok).2 { a with cancelled := true } step.2.1 htok heid
      step.2.2.1
    simp only [iterateCancel]
    rw [ih2, step.2.2.2.1, step.2.2.2.2]
    have hle := notifiedCount_le db eid
    omega

/-- Claim C10: cancel never checks whether the attendee is already
cancelled — with a matching token it succeeds again and runs waitlist
promotion again, so n repeated cancel calls on one attendee drive the
event's notified count to min (initial + n) (total), marking up to n
distinct waitlist entries even though at most one capacity slot was
freed. -/
theorem cancel_repeats_promotion (db : DB) (aid tok eid : Nat) (a : Attendee)
    (hfind : db.attendees.find? (fun x => x.id == aid) = some a)
    (htok : a.cancel_token = tok)
    (hcanc : a.cancelled = true)
    (heid : a.event_id = eid)
    (hnodup : (db.waitlist.map (fun x => x.id)).Nodup) :
    (cancel db aid tok).1 = .ok ∧
    ∀ n, notifiedCount (iterateCancel aid tok n db) eid =
      min (notifiedCount db eid + n) (waitlistCount db eid) := by
  refine ⟨(cancel_ok_step db aid tok eid a hfind htok heid hnodup).1, fun n => ?_⟩
  exact iterateCancel_notified aid tok eid n db a hfind htok heid hnodup

/-- Witness for C10: the attendee is already cancelled, yet cancel
still succeeds, and two repeated cancels notify both waitlist entries
although only one slot was ever freed. -/
theorem cancel_repeats_promotion_witness :
    c10db.attendees.find? (fun x => x.id == 1) = some c10att ∧
    c10att.cancelled = true ∧
    (cancel c10db 1 7).1 = .ok ∧
    notifiedCount c10db 20 = 0 ∧
    notifiedCount (iterateCancel 1 7 2 c10db) 20 = 2 := by
  have h := cancel_repeats_promotion c10db 1 7 20 c10att rfl rfl rfl rfl (by decide)
  refine ⟨rfl, rfl, h.1, rfl, ?_⟩
  rw [h.2 2]
  decide

/-! ## C9: dashboard authorization -/

/-- Claim C9: for a logged-in requester, the dashboard returns the
aggregation exactly when the event has no owner or the owner is the
requester, and fails with Forbidden exactly when the event has an
owner different from the requester. -/
theorem dashboard_owner_or_unowned (db : DB) (slug : String) (uid : Nat) (event : Event)
    (hev : db.events.find? (fun e => e.slug == slug) = some event) :
    (dashboard db slug (some uid) = .ok (dashboardData db event) ↔
      (event.user_id = none ∨ event.user_id = some uid)) ∧
    (dashboard db slug (some uid) = .forbidden ↔
      (event.user_id ≠ none ∧ event.user_id ≠ some uid)) := by
  cases huid : event.user_id with
  | none => simp [dashboard, hev, huid]
  | some o =>
    by_cases ho : o = uid
    · subst ho
      simp [dashboard, hev, huid]
    · simp [dashboard, hev, huid, ho]

/-- Witness for C9: the owner (user 42) gets the aggregation, a
different logged-in user (43) gets Forbidden. -/
theorem dashboard_owner_or_unowned_witness :
    w9db.events.find? (fun e => e.slug == "ev") = some w9ev ∧
    dashboard w9db "ev" (some 42) = .ok (dashboardData w9db w9ev) ∧
    dashboard w9db "ev" (some 43) = .forbidden := by
  have h42 := dashboard_owner_or_unowned w9db "ev" 42 w9ev rfl
  have h43 := dashboard_owner_or_unowned w9db "ev" 43 w9ev rfl
  refine ⟨rfl, h42.1.mpr (Or.inr rfl), h43.2.mpr ⟨by decide, by decide⟩⟩

end Gather
